import Mathlib

/-!
Verification development for the missile-defense game engine
(`src/types.ts` simulation portion plus `constants.ts`).

The TypeScript engine is shallowly embedded: canvas coordinates, progress
fractions, radii and speeds are modelled as exact rationals (`ℚ`), scores,
rounds and ammo counts as integers (`ℤ`), and the random draws consumed by a
frame (`Math.random()` calls) are passed in explicitly as a `RandomInput`
record.  String identities produced by `Math.random().toString(36)` are
modelled as natural numbers drawn from a counter threaded through the frame
update.  JavaScript `Array.prototype.forEach` combined with in-place
`splice`/`push` is modelled index-by-index by `forEachLoop`: the iteration
bound is the length of the array when the loop starts, and every step
re-reads the current element at the visited index (`List.get?`), exactly as
the JS semantics prescribe (spliced-away indices are skipped, elements that
shifted below the bound are visited).
-/

namespace Game

/-- `GameStatus` from `types.ts`. -/
inductive GameStatus where
  | START
  | PLAYING
  | WON
  | LOST
  | ROUND_END
deriving DecidableEq

/-- `Point` from `types.ts`: a 2D canvas coordinate. -/
structure Point where
  x : ℚ
  y : ℚ
deriving DecidableEq

/-- `EnemyRocket` from `types.ts` (the string `id` is modelled as a `Nat`). -/
structure EnemyRocket where
  id : Nat
  pos : Point
  start : Point
  target : Point
  progress : ℚ
  speed : ℚ
deriving DecidableEq

/-- `InterceptorMissile` from `types.ts`. -/
structure InterceptorMissile where
  id : Nat
  pos : Point
  start : Point
  target : Point
  progress : ℚ
  speed : ℚ
  sourceTurretIndex : Nat
deriving DecidableEq

/-- `Explosion` from `types.ts`. -/
structure Explosion where
  id : Nat
  pos : Point
  radius : ℚ
  maxRadius : ℚ
  growing : Bool
  finished : Bool
deriving DecidableEq

/-- `Turret` from `types.ts`. -/
structure Turret where
  pos : Point
  ammo : ℤ
  maxAmmo : ℤ
  destroyed : Bool
deriving DecidableEq

/-- `City` from `types.ts`. -/
structure City where
  pos : Point
  destroyed : Bool
deriving DecidableEq

/-- `GameState` from `types.ts`. -/
structure GameState where
  score : ℤ
  status : GameStatus
  rockets : List EnemyRocket
  missiles : List InterceptorMissile
  explosions : List Explosion
  turrets : List Turret
  cities : List City
  round : ℤ
  rocketsToSpawn : ℤ
deriving DecidableEq

/-! Constants from `constants.ts`. -/

def CANVAS_WIDTH : ℚ := 800
def CANVAS_HEIGHT : ℚ := 600
def EXPLOSION_MAX_RADIUS : ℚ := 40
def EXPLOSION_GROWTH_SPEED : ℚ := 3 / 2
def MISSILE_SPEED : ℚ := 1 / 50
def ROCKET_SPEED_BASE : ℚ := 1 / 1000
def ROCKET_SPEED_INC : ℚ := 1 / 5000
def WIN_SCORE : ℤ := 1000
def TURRET_AMMO : List ℤ := [10, 20, 10]

/-- The bundle of `Math.random()` draws consumed by one engine call
(one frame update or one rocket spawn), plus the fresh-identity supply.
`spawnRoll` is the Bernoulli draw for the per-frame spawn attempt,
`spawnX` the draw for the spawn x position (a fraction of the width),
`spawnChoice` picks the target among the valid targets, `spawnJitter` the
draw for the rocket-speed jitter, `spawnId` and `firstId` feed the
identity counter. -/
structure RandomInput where
  firstId : Nat
  spawnRoll : ℚ
  spawnX : ℚ
  spawnChoice : Nat
  spawnJitter : ℚ
  spawnId : Nat
deriving DecidableEq

/-- `initGame` from `types.ts`: the freshly initialized world. -/
def initGame : GameState :=
  { score := 0
    status := GameStatus.PLAYING
    rockets := []
    missiles := []
    explosions := []
    turrets :=
      [ { pos := { x := 50, y := CANVAS_HEIGHT - 40 }, ammo := TURRET_AMMO.getD 0 0,
          maxAmmo := TURRET_AMMO.getD 0 0, destroyed := false },
        { pos := { x := CANVAS_WIDTH / 2, y := CANVAS_HEIGHT - 40 }, ammo := TURRET_AMMO.getD 1 0,
          maxAmmo := TURRET_AMMO.getD 1 0, destroyed := false },
        { pos := { x := CANVAS_WIDTH - 50, y := CANVAS_HEIGHT - 40 }, ammo := TURRET_AMMO.getD 2 0,
          maxAmmo := TURRET_AMMO.getD 2 0, destroyed := false } ]
    cities :=
      [ { pos := { x := 150, y := CANVAS_HEIGHT - 20 }, destroyed := false },
        { pos := { x := 250, y := CANVAS_HEIGHT - 20 }, destroyed := false },
        { pos := { x := 350, y := CANVAS_HEIGHT - 20 }, destroyed := false },
        { pos := { x := 450, y := CANVAS_HEIGHT - 20 }, destroyed := false },
        { pos := { x := 550, y := CANVAS_HEIGHT - 20 }, destroyed := false },
        { pos := { x := 650, y := CANVAS_HEIGHT - 20 }, destroyed := false } ]
    round := 1
    rocketsToSpawn := 3 }

/-- `nextRound` from `types.ts`: awards the leftover-ammo bonus, refills the
surviving turrets, advances the round counter, recomputes the spawn budget
and resumes play.  The source's single `forEach` that both accumulates the
bonus and refills is rendered as the accumulating fold plus the
corresponding map. -/
def nextRound (s : GameState) : GameState :=
  let ammoBonus : ℤ :=
    s.turrets.foldl (fun b t => if t.destroyed = false then b + t.ammo * 5 else b) 0
  { s with
    turrets := s.turrets.map (fun t => if t.destroyed = false then { t with ammo := t.maxAmmo } else t)
    score := s.score + ammoBonus
    round := s.round + 1
    rocketsToSpawn := 3 + (s.round + 1) * 1
    status := GameStatus.PLAYING }

/-- `spawnRocket` from `types.ts`.  The spawn draws come from the
`RandomInput`; the target list keeps only the positions of the surviving
cities and turrets, which is all the source reads from the chosen entity. -/
def spawnRocket (s : GameState) (rnd : RandomInput) : GameState :=
  if s.status = GameStatus.PLAYING ∧ 0 < s.rocketsToSpawn then
    let s1 := { s with rocketsToSpawn := s.rocketsToSpawn - 1 }
    let start : Point := { x := rnd.spawnX * CANVAS_WIDTH, y := 0 }
    let targets : List Point :=
      (s1.cities.filter (fun c => c.destroyed = false)).map (fun c => c.pos)
        ++ (s1.turrets.filter (fun t => t.destroyed = false)).map (fun t => t.pos)
    if targets.length = 0 then s1
    else
      let target : Point := targets.getD (rnd.spawnChoice % targets.length) { x := 0, y := 0 }
      let speed : ℚ :=
        ROCKET_SPEED_BASE + ((s1.round : ℚ) - 1) * ROCKET_SPEED_INC + rnd.spawnJitter * (5 / 10000)
      { s1 with
        rockets := s1.rockets ++
          [ { id := rnd.spawnId, pos := start, start := start, target := target,
              progress := 0, speed := speed } ] }
  else s

/-- The turret-selection scan of `handleCanvasClick` in `types.ts`: walk the
turret array keeping the index and horizontal distance of the best
not-destroyed, ammo-carrying turret seen so far, replacing it only on a
strictly smaller distance (`dist < minDist`); `none` plays the role of the
initial `minDist = Infinity, bestTurretIndex = -1`. -/
def findBestTurret (x : ℚ) : List Turret → Nat → Option (Nat × ℚ) → Option (Nat × ℚ)
  | [], _, best => best
  | t :: rest, i, best =>
    let best' :=
      if t.destroyed = false ∧ 0 < t.ammo then
        match best with
        | none => some (i, |t.pos.x - x|)
        | some (bi, bd) => if |t.pos.x - x| < bd then some (i, |t.pos.x - x|) else some (bi, bd)
      else best
    findBestTurret x rest (i + 1) best'

/-- The engine portion of `handleCanvasClick` from `types.ts` (the spec's
`fireInterceptor`): the DOM-event-to-canvas coordinate mapping is
presentation glue, so the click is taken directly as a canvas-space point;
the missile identity is passed in like the other random draws. -/
def fireInterceptor (s : GameState) (click : Point) (missileId : Nat) : GameState :=
  if s.status = GameStatus.PLAYING then
    match findBestTurret click.x s.turrets 0 none with
    | none => s
    | some (i, _) =>
      let t := s.turrets.getD i { pos := { x := 0, y := 0 }, ammo := 0, maxAmmo := 0, destroyed := false }
      { s with
        turrets := s.turrets.set i { t with ammo := t.ammo - 1 }
        missiles := s.missiles ++
          [ { id := missileId, pos := t.pos, start := t.pos, target := click,
              progress := 0, speed := MISSILE_SPEED, sourceTurretIndex := i } ] }
  else s

/-- The game state together with the fresh-identity counter threaded through
one `update` call. -/
structure UState where
  gs : GameState
  nextId : Nat

/-- JavaScript `Array.prototype.forEach` over a mutating array: the fuel is
the array length captured when the loop starts, `k` the visited index; each
step re-reads the element currently at index `k` (the bodies below return
the state unchanged when the index no longer exists). -/
def forEachLoop (body : UState → Nat → UState) : UState → Nat → Nat → UState
  | u, _, 0 => u
  | u, k, n + 1 => forEachLoop body (body u k) (k + 1) n

/-- One step of the rocket loop of `update` (part 1): advance progress,
recompute the interpolated position, and on `progress >= 1` spawn the impact
explosion, destroy every city/turret inside the impact box, and splice the
rocket out. -/
def rocketStep (u : UState) (k : Nat) : UState :=
  match u.gs.rockets.get? k with
  | none => u
  | some r =>
    let p := r.progress + r.speed
    let tgt := r.target
    if 1 ≤ p then
      { gs := { u.gs with
          explosions := u.gs.explosions ++
            [ { id := u.nextId, pos := tgt, radius := 0,
                maxRadius := EXPLOSION_MAX_RADIUS, growing := true, finished := false } ]
          cities := u.gs.cities.map (fun c =>
            if c.destroyed = false ∧ |c.pos.x - tgt.x| < 10 ∧ |c.pos.y - tgt.y| < 10
            then { c with destroyed := true } else c)
          turrets := u.gs.turrets.map (fun t =>
            if t.destroyed = false ∧ |t.pos.x - tgt.x| < 20 ∧ |t.pos.y - tgt.y| < 20
            then { t with destroyed := true } else t)
          rockets := u.gs.rockets.eraseIdx k }
        nextId := u.nextId + 1 }
    else
      let moved : EnemyRocket := { r with
        progress := p
        pos := { x := r.start.x + (r.target.x - r.start.x) * p,
                 y := r.start.y + (r.target.y - r.start.y) * p } }
      { u with gs := { u.gs with rockets := u.gs.rockets.set k moved } }

/-- One step of the missile loop of `update` (part 2): advance progress,
recompute the position, and on `progress >= 1` spawn the harmless impact
explosion and splice the missile out. -/
def missileStep (u : UState) (k : Nat) : UState :=
  match u.gs.missiles.get? k with
  | none => u
  | some m =>
    let p := m.progress + m.speed
    if 1 ≤ p then
      { gs := { u.gs with
          explosions := u.gs.explosions ++
            [ { id := u.nextId, pos := m.target, radius := 0,
                maxRadius := EXPLOSION_MAX_RADIUS, growing := true, finished := false } ]
          missiles := u.gs.missiles.eraseIdx k }
        nextId := u.nextId + 1 }
    else
      let moved : InterceptorMissile := { m with
        progress := p
        pos := { x := m.start.x + (m.target.x - m.start.x) * p,
                 y := m.start.y + (m.target.y - m.start.y) * p } }
      { u with gs := { u.gs with missiles := u.gs.missiles.set k moved } }

/-- The source's strict comparison `Math.sqrt(dx*dx + dy*dy) < r`, encoded
exactly over the rationals: for a nonnegative radicand, `sqrt d < r` holds
iff `r` is positive and `d < r * r`. -/
def distLtRadius (p c : Point) (r : ℚ) : Prop :=
  0 < r ∧ (p.x - c.x) * (p.x - c.x) + (p.y - c.y) * (p.y - c.y) < r * r

instance (p c : Point) (r : ℚ) : Decidable (distLtRadius p c r) := by
  unfold distLtRadius; infer_instance

/-- One step of the rocket-collision loop nested inside the explosion loop of
`update` (part 3): a rocket strictly inside the blast radius is worth 20
points, leaves a half-size secondary explosion at its position, and is
spliced out. -/
def collideStep (epos : Point) (eradius : ℚ) (u : UState) (k : Nat) : UState :=
  match u.gs.rockets.get? k with
  | none => u
  | some r =>
    if distLtRadius r.pos epos eradius then
      { gs := { u.gs with
          score := u.gs.score + 20
          explosions := u.gs.explosions ++
            [ { id := u.nextId, pos := r.pos, radius := 0,
                maxRadius := EXPLOSION_MAX_RADIUS / 2, growing := true, finished := false } ]
          rockets := u.gs.rockets.eraseIdx k }
        nextId := u.nextId + 1 }
    else u

/-- One step of the explosion loop of `update` (part 3): grow until the
radius reaches `maxRadius`, then shrink until it reaches 0 and is marked
finished; a finished explosion is spliced out, any other one is written back
and tested against every live rocket. -/
def explosionStep (u : UState) (k : Nat) : UState :=
  match u.gs.explosions.get? k with
  | none => u
  | some e =>
    let r := if e.growing then e.radius + EXPLOSION_GROWTH_SPEED else e.radius - EXPLOSION_GROWTH_SPEED
    let g := if e.growing then (if e.maxRadius ≤ r then false else e.growing) else e.growing
    let f := if e.growing then e.finished else (if r ≤ 0 then true else e.finished)
    if f then
      { u with gs := { u.gs with explosions := u.gs.explosions.eraseIdx k } }
    else
      let e' : Explosion := { e with radius := r, growing := g, finished := f }
      let u1 : UState := { u with gs := { u.gs with explosions := u.gs.explosions.set k e' } }
      forEachLoop (collideStep e.pos r) u1 0 u1.gs.rockets.length

/-- Parts 1–3 of `update` from `types.ts`: the rocket, missile and explosion
forEach passes, run in order, each over the length its collection has when
the pass starts. -/
def runPasses (u0 : UState) : UState :=
  let u1 := forEachLoop rocketStep u0 0 u0.gs.rockets.length
  let u2 := forEachLoop missileStep u1 0 u1.gs.missiles.length
  forEachLoop explosionStep u2 0 u2.gs.explosions.length

/-- Part 4 of `update` from `types.ts` plus the trailing spawn attempt:
three independent checks (all-turrets-destroyed sets LOST; `score >=
WIN_SCORE` sets WON and returns early; the empty-queue condition sets
ROUND_END), then the per-frame Bernoulli spawn attempt. -/
def checkOutcome (s3 : GameState) (rnd : RandomInput) : GameState :=
  let s4 := if s3.turrets.all (fun t => t.destroyed) then { s3 with status := GameStatus.LOST } else s3
  if WIN_SCORE ≤ s4.score then { s4 with status := GameStatus.WON }
  else
    let s5 :=
      if s4.rocketsToSpawn = 0 ∧ s4.rockets.length = 0 ∧ s4.explosions.length = 0 then
        { s4 with status := GameStatus.ROUND_END }
      else s4
    if 0 < s5.rocketsToSpawn ∧ rnd.spawnRoll < 7 / 1000 + (s5.round : ℚ) * (2 / 1000) then
      spawnRocket s5 rnd
    else s5

/-- `update` from `types.ts` (the spec's `advanceFrame`): a no-op unless
PLAYING; otherwise the three motion/collision passes followed by the outcome
checks and the spawn attempt. -/
def update (s : GameState) (rnd : RandomInput) : GameState :=
  if s.status = GameStatus.PLAYING then
    checkOutcome (runPasses { gs := s, nextId := rnd.firstId }).gs rnd
  else s

/-! ### Specification-side predicates -/

/-- The projectile position invariant of the spec: `pos` is the linear
interpolation of `start` to `target` at `progress`. -/
def lerpOk (pos s t : Point) (prog : ℚ) : Prop :=
  pos.x = s.x + (t.x - s.x) * prog ∧ pos.y = s.y + (t.y - s.y) * prog

/-- Every live projectile sits on its interpolated trajectory. -/
def PosOkAll (s : GameState) : Prop :=
  (∀ r ∈ s.rockets, lerpOk r.pos r.start r.target r.progress) ∧
    (∀ m ∈ s.missiles, lerpOk m.pos m.start m.target m.progress)

/-- Every live projectile has a nonnegative speed (true of every projectile
the engine creates: rocket speeds are a positive base plus nonnegative
increments, missile speeds are the fixed positive constant). -/
def SpeedsNonneg (s : GameState) : Prop :=
  (∀ r ∈ s.rockets, 0 ≤ r.speed) ∧ (∀ m ∈ s.missiles, 0 ≤ m.speed)

/-- The explosion-radius invariant the code actually maintains: the radius is
nonnegative, overshoots `maxRadius` by strictly less than one growth
increment, stays strictly below `maxRadius` while still growing, and the
maximal radius is positive. -/
def ExplosionInv (e : Explosion) : Prop :=
  0 ≤ e.radius ∧ e.radius < e.maxRadius + EXPLOSION_GROWTH_SPEED ∧
    (e.growing = true → e.radius < e.maxRadius) ∧ 0 < e.maxRadius

/-- All live explosions satisfy the maintained radius invariant. -/
def ExplosionsOk (s : GameState) : Prop := ∀ e ∈ s.explosions, ExplosionInv e

/-- The radius invariant exactly as the spec claims it: the radius never
leaves `[0, maxRadius]`. -/
def SpecExplosionsOk (s : GameState) : Prop :=
  ∀ e ∈ s.explosions, 0 ≤ e.radius ∧ e.radius ≤ e.maxRadius

/-- The turret ammo invariant: `0 ≤ ammo ≤ maxAmmo`. -/
def AmmoOk (s : GameState) : Prop := ∀ t ∈ s.turrets, 0 ≤ t.ammo ∧ t.ammo ≤ t.maxAmmo

/-! ### Concrete inputs used by counterexamples and witnesses -/

/-- A frame's random draws with a spawn roll that always fails the Bernoulli
test in the relevant rounds. -/
def rnd0 : RandomInput :=
  { firstId := 100, spawnRoll := 1, spawnX := 0, spawnChoice := 0, spawnJitter := 0, spawnId := 0 }

/-- A playing state whose only turret is destroyed, with an empty spawn
queue and no live rockets or explosions. -/
def c1s : GameState :=
  { score := 0, status := GameStatus.PLAYING, rockets := [], missiles := [], explosions := [],
    turrets := [ { pos := { x := 50, y := 560 }, ammo := 0, maxAmmo := 10, destroyed := true } ],
    cities := [], round := 1, rocketsToSpawn := 0 }

/-- Like `c1s` but with one rocket still to spawn, so the round-end condition
fails. -/
def c1ws : GameState :=
  { score := 0, status := GameStatus.PLAYING, rockets := [], missiles := [], explosions := [],
    turrets := [ { pos := { x := 50, y := 560 }, ammo := 0, maxAmmo := 10, destroyed := true } ],
    cities := [], round := 1, rocketsToSpawn := 1 }

/-- A rocket one frame away from impact. -/
def r0 : EnemyRocket :=
  { id := 0, pos := { x := 100, y := 90 }, start := { x := 100, y := 0 },
    target := { x := 100, y := 100 }, progress := 9 / 10, speed := 1 / 5 }

/-- A second live rocket, far away from the first one's impact point. -/
def r1 : EnemyRocket :=
  { id := 1, pos := { x := 500, y := 10 }, start := { x := 500, y := 0 },
    target := { x := 500, y := 100 }, progress := 1 / 10, speed := 1 / 5 }

/-- A playing state with two live rockets, the first of which impacts this
frame. -/
def c2s : GameState :=
  { score := 0, status := GameStatus.PLAYING, rockets := [r0, r1], missiles := [], explosions := [],
    turrets := [], cities := [], round := 1, rocketsToSpawn := 5 }

/-- A playing state with one growing explosion whose radius (39) is one
growth step below its maximal radius (40). -/
def c3s : GameState :=
  { score := 0, status := GameStatus.PLAYING, rockets := [], missiles := [],
    explosions := [ { id := 0, pos := { x := 300, y := 300 }, radius := 39, maxRadius := 40,
                      growing := true, finished := false } ],
    turrets := [ { pos := { x := 50, y := 560 }, ammo := 10, maxAmmo := 10, destroyed := false } ],
    cities := [], round := 1, rocketsToSpawn := 2 }

/-- A playing state with one rocket still to spawn and every city and turret
destroyed. -/
def c4s : GameState :=
  { score := 0, status := GameStatus.PLAYING, rockets := [], missiles := [], explosions := [],
    turrets := [ { pos := { x := 50, y := 560 }, ammo := 3, maxAmmo := 10, destroyed := true } ],
    cities := [ { pos := { x := 150, y := 580 }, destroyed := true } ],
    round := 1, rocketsToSpawn := 1 }

/-- A round-end state with a fully armed, intact turret. -/
def c5s : GameState :=
  { score := 0, status := GameStatus.ROUND_END, rockets := [], missiles := [], explosions := [],
    turrets := [ { pos := { x := 50, y := 560 }, ammo := 10, maxAmmo := 10, destroyed := false } ],
    cities := [], round := 1, rocketsToSpawn := 0 }

/-- A round-end state with two surviving turrets holding 3 and 7 ammo. -/
def c6s : GameState :=
  { score := 0, status := GameStatus.ROUND_END, rockets := [], missiles := [], explosions := [],
    turrets := [ { pos := { x := 50, y := 560 }, ammo := 3, maxAmmo := 10, destroyed := false },
                 { pos := { x := 400, y := 560 }, ammo := 7, maxAmmo := 20, destroyed := false } ],
    cities := [], round := 1, rocketsToSpawn := 0 }

/-- The click point used by the firing witness. -/
def clickPt : Point := { x := 200, y := 300 }

/-! ### The ammo-bonus fold -/

theorem foldl_bonus (ts : List Turret) :
    ∀ a : ℤ, ts.foldl (fun b t => if t.destroyed = false then b + t.ammo * 5 else b) a
      = a + 5 * ((ts.filter (fun t => !t.destroyed)).map (fun t => t.ammo)).sum := by
  induction ts with
  | nil => intro a; simp
  | cons t rest ih =>
    intro a
    cases hd : t.destroyed <;>
      simp [List.foldl_cons, List.filter_cons, hd, ih] <;> ring

/-- C6: the round transition adds 5 points per unit of leftover ammo on each
surviving turret, refills surviving turrets to `maxAmmo` leaving destroyed
ones untouched, increments the round by one, sets the spawn budget to 3 plus
the new round number, and resumes play. -/
theorem c6_next_round_spec (s : GameState) :
    (nextRound s).score
        = s.score + 5 * ((s.turrets.filter (fun t => !t.destroyed)).map (fun t => t.ammo)).sum ∧
      (nextRound s).round = s.round + 1 ∧
      (nextRound s).rocketsToSpawn = 3 + (nextRound s).round ∧
      (nextRound s).status = GameStatus.PLAYING ∧
      ∀ i t, s.turrets.get? i = some t →
        (nextRound s).turrets.get? i
          = some (if t.destroyed then t else { t with ammo := t.maxAmmo }) := by
  refine ⟨?_, rfl, ?_, rfl, ?_⟩
  · show s.score + _ = _
    rw [foldl_bonus]
    ring
  · show 3 + (s.round + 1) * 1 = 3 + (s.round + 1)
    ring
  · intro i t hget
    show (s.turrets.map _).get? i = _
    rw [List.get?_map, hget]
    cases hd : t.destroyed <;> simp [hd]

/-- C6 witness: two surviving turrets with 3 and 7 leftover ammo yield
exactly 50 bonus points. -/
theorem c6_next_round_spec_witness : (nextRound c6s).score = c6s.score + 50 := by
  have h := (c6_next_round_spec c6s).1
  rw [h]
  norm_num [c6s]

/-- C9: the round transition never looks at the current status — whatever
status the state carries (LOST and WON included), it still awards the ammo
bonus, refills the surviving turrets, increments the round, and puts the
game back into PLAYING. -/
theorem c9_next_round_ignores_status (s : GameState) (st : GameStatus) :
    (nextRound { s with status := st }).status = GameStatus.PLAYING ∧
      (nextRound { s with status := st }).round = s.round + 1 ∧
      (nextRound { s with status := st }).score
        = s.score + 5 * ((s.turrets.filter (fun t => !t.destroyed)).map (fun t => t.ammo)).sum ∧
      (nextRound { s with status := st }).turrets
        = s.turrets.map (fun t => if t.destroyed = false then { t with ammo := t.maxAmmo } else t) := by
  refine ⟨rfl, rfl, ?_, rfl⟩
  show s.score + _ = _
  rw [foldl_bonus]
  ring

/-- C2: the rocket pass skips a live rocket when the rocket before it is
removed mid-iteration — in `c2s` the second rocket (id 1) receives no motion
update at all (its progress stays 1/10 instead of advancing to 3/10). -/
theorem c2_skipped_rocket_eval :
    c2s.rockets.map (fun r => r.progress) = [9 / 10, 1 / 10] ∧
      (update c2s rnd0).rockets.map (fun r => r.id) = [1] ∧
      (update c2s rnd0).rockets.map (fun r => r.progress) = [1 / 10] := by
  refine ⟨by norm_num [c2s, r0, r1], ?_, ?_⟩ <;>
    norm_num [update, runPasses, checkOutcome, forEachLoop, rocketStep, missileStep,
      explosionStep, collideStep, spawnRocket, c2s, r0, r1, rnd0, EXPLOSION_MAX_RADIUS,
      EXPLOSION_GROWTH_SPEED, WIN_SCORE, distLtRadius]

/-- C1 counterexample: with every turret destroyed, the spawn queue empty and
no live rockets or explosions, the frame ends in ROUND_END, not LOST — the
round-end check overrides the LOST assignment in the same frame. -/
theorem c1_priority_counterexample :
    (∀ t ∈ c1s.turrets, t.destroyed = true) ∧ c1s.score < WIN_SCORE ∧
      c1s.status = GameStatus.PLAYING ∧
      (update c1s rnd0).status = GameStatus.ROUND_END := by
  refine ⟨by decide, by decide, rfl, ?_⟩
  norm_num [update, runPasses, checkOutcome, forEachLoop, rocketStep, missileStep,
    explosionStep, collideStep, spawnRocket, c1s, rnd0, WIN_SCORE]

/-- C4 counterexample: a spawn attempt in a playing state with a nonempty
spawn queue but no surviving city or turret still decrements
`rocketsToSpawn` (from 1 to 0), so the world state is not left unchanged. -/
theorem c4_decrement_counterexample :
    c4s.status = GameStatus.PLAYING ∧ (∀ c ∈ c4s.cities, c.destroyed = true) ∧
      (∀ t ∈ c4s.turrets, t.destroyed = true) ∧ c4s.rocketsToSpawn = 1 ∧
      (spawnRocket c4s rnd0).rockets = [] ∧ (spawnRocket c4s rnd0).rocketsToSpawn = 0 := by
  refine ⟨rfl, by decide, by decide, by decide, ?_, ?_⟩ <;>
    norm_num [spawnRocket, c4s, rnd0]

/-- C4 as amended: when the gate passes (status PLAYING, positive spawn
queue) but every city and turret is destroyed, the spawn adds no rocket and
changes nothing except `rocketsToSpawn`, which is still decremented. -/
theorem c4_no_target_spawn (s : GameState) (rnd : RandomInput)
    (hst : s.status = GameStatus.PLAYING) (hq : 0 < s.rocketsToSpawn)
    (hc : ∀ c ∈ s.cities, c.destroyed = true) (ht : ∀ t ∈ s.turrets, t.destroyed = true) :
    spawnRocket s rnd = { s with rocketsToSpawn := s.rocketsToSpawn - 1 } := by
  unfold spawnRocket
  rw [if_pos ⟨hst, hq⟩]
  have hcf : s.cities.filter (fun c => c.destroyed = false) = [] := by
    rw [List.filter_eq_nil]
    intro c hcmem
    simp [hc c hcmem]
  have htf : s.turrets.filter (fun t => t.destroyed = false) = [] := by
    rw [List.filter_eq_nil]
    intro t htmem
    simp [ht t htmem]
  simp [hcf, htf]
  exact ⟨hc, ht⟩

/-- C4 witness: the amended statement at the concrete all-destroyed state. -/
theorem c4_no_target_spawn_witness :
    spawnRocket c4s rnd0 = { c4s with rocketsToSpawn := c4s.rocketsToSpawn - 1 } :=
  c4_no_target_spawn c4s rnd0 rfl (by decide) (by decide) (by decide)

/-- C5 counterexample: outside of PLAYING (here ROUND_END) a click is
silently dropped even though an intact turret with ammo exists — no missile
is fired and the state is unchanged. -/
theorem c5_status_counterexample :
    (∃ t ∈ c5s.turrets, t.destroyed = false ∧ 0 < t.ammo) ∧
      fireInterceptor c5s clickPt 7 = c5s := by
  exact ⟨by decide, rfl⟩

/-! ### Preservation through the forEach loops -/

theorem forEachLoop_pres (P : UState → Prop) (body : UState → Nat → UState)
    (hb : ∀ u k, P u → P (body u k)) :
    ∀ (n k : Nat) (u : UState), P u → P (forEachLoop body u k n) := by
  intro n
  induction n with
  | zero => intro k u h; exact h
  | succ n ih => intro k u h; exact ih (k + 1) (body u k) (hb u k h)

theorem rocketStep_status (u : UState) (k : Nat) :
    (rocketStep u k).gs.status = u.gs.status := by
  unfold rocketStep
  cases u.gs.rockets.get? k with
  | none => rfl
  | some r => dsimp only; split <;> rfl

theorem missileStep_status (u : UState) (k : Nat) :
    (missileStep u k).gs.status = u.gs.status := by
  unfold missileStep
  cases u.gs.missiles.get? k with
  | none => rfl
  | some m => dsimp only; split <;> rfl

theorem collideStep_status (epos : Point) (er : ℚ) (u : UState) (k : Nat) :
    (collideStep epos er u k).gs.status = u.gs.status := by
  unfold collideStep
  cases u.gs.rockets.get? k with
  | none => rfl
  | some r => dsimp only; split <;> rfl

theorem explosionStep_status (u : UState) (k : Nat) :
    (explosionStep u k).gs.status = u.gs.status := by
  unfold explosionStep
  cases u.gs.explosions.get? k with
  | none => rfl
  | some e =>
    dsimp only
    repeat' split
    all_goals first
      | rfl
      | exact forEachLoop_pres (fun v => v.gs.status = u.gs.status) _
          (fun v j hv => by simpa only [collideStep_status] using hv) _ _ _ rfl

theorem missileStep_turrets (u : UState) (k : Nat) :
    (missileStep u k).gs.turrets = u.gs.turrets := by
  unfold missileStep
  cases u.gs.missiles.get? k with
  | none => rfl
  | some m => dsimp only; split <;> rfl

theorem collideStep_turrets (epos : Point) (er : ℚ) (u : UState) (k : Nat) :
    (collideStep epos er u k).gs.turrets = u.gs.turrets := by
  unfold collideStep
  cases u.gs.rockets.get? k with
  | none => rfl
  | some r => dsimp only; split <;> rfl

theorem explosionStep_turrets (u : UState) (k : Nat) :
    (explosionStep u k).gs.turrets = u.gs.turrets := by
  unfold explosionStep
  cases u.gs.explosions.get? k with
  | none => rfl
  | some e =>
    dsimp only
    repeat' split
    all_goals first
      | rfl
      | exact forEachLoop_pres (fun v => v.gs.turrets = u.gs.turrets) _
          (fun v j hv => by simpa only [collideStep_turrets] using hv) _ _ _ rfl

theorem rocketStep_all_destroyed (u : UState) (k : Nat)
    (h : u.gs.turrets.all (fun t => t.destroyed) = true) :
    (rocketStep u k).gs.turrets.all (fun t => t.destroyed) = true := by
  unfold rocketStep
  cases hg : u.gs.rockets.get? k with
  | none => exact h
  | some r =>
    dsimp only
    split
    · rw [List.all_eq_true] at h ⊢
      intro t ht
      rcases List.mem_map.1 ht with ⟨t0, ht0, rfl⟩
      have h0 := h t0 ht0
      split <;> simp_all
    · exact h

theorem rocketLoop_all_destroyed (n k : Nat) (u : UState)
    (h : u.gs.turrets.all (fun t => t.destroyed) = true) :
    (forEachLoop rocketStep u k n).gs.turrets.all (fun t => t.destroyed) = true :=
  forEachLoop_pres _ _ (fun v j hv => rocketStep_all_destroyed v j hv) n k u h

theorem missileLoop_all_destroyed (n k : Nat) (u : UState)
    (h : u.gs.turrets.all (fun t => t.destroyed) = true) :
    (forEachLoop missileStep u k n).gs.turrets.all (fun t => t.destroyed) = true :=
  forEachLoop_pres (fun v => v.gs.turrets.all (fun t => t.destroyed) = true) missileStep
    (fun v j hv => by simpa only [missileStep_turrets] using hv) n k u h

theorem explosionLoop_all_destroyed (n k : Nat) (u : UState)
    (h : u.gs.turrets.all (fun t => t.destroyed) = true) :
    (forEachLoop explosionStep u k n).gs.turrets.all (fun t => t.destroyed) = true :=
  forEachLoop_pres (fun v => v.gs.turrets.all (fun t => t.destroyed) = true) explosionStep
    (fun v j hv => by simpa only [explosionStep_turrets] using hv) n k u h

theorem spawnRocket_not_playing (s : GameState) (rnd : RandomInput)
    (h : s.status ≠ GameStatus.PLAYING) : spawnRocket s rnd = s := by
  unfold spawnRocket
  rw [if_neg]
  intro hc
  exact h hc.1

/-- When every turret of the post-pass state is destroyed, the outcome
section reduces to: WON if the score reached the threshold, else ROUND_END
if the round-end condition holds, else LOST (where the trailing spawn
attempt is a no-op because the status is no longer PLAYING). -/
theorem checkOutcome_cases (s3 : GameState) (rnd : RandomInput)
    (hall : s3.turrets.all (fun t => t.destroyed) = true) :
    (WIN_SCORE ≤ (checkOutcome s3 rnd).score → (checkOutcome s3 rnd).status = GameStatus.WON) ∧
      ((checkOutcome s3 rnd).score < WIN_SCORE →
        ((checkOutcome s3 rnd).rocketsToSpawn = 0 ∧ (checkOutcome s3 rnd).rockets.length = 0 ∧
            (checkOutcome s3 rnd).explosions.length = 0) →
        (checkOutcome s3 rnd).status = GameStatus.ROUND_END) ∧
      ((checkOutcome s3 rnd).score < WIN_SCORE →
        ¬((checkOutcome s3 rnd).rocketsToSpawn = 0 ∧ (checkOutcome s3 rnd).rockets.length = 0 ∧
            (checkOutcome s3 rnd).explosions.length = 0) →
        (checkOutcome s3 rnd).status = GameStatus.LOST) := by
  have hco : checkOutcome s3 rnd =
      (if WIN_SCORE ≤ s3.score then { s3 with status := GameStatus.WON }
       else if s3.rocketsToSpawn = 0 ∧ s3.rockets.length = 0 ∧ s3.explosions.length = 0 then
         { s3 with status := GameStatus.ROUND_END }
       else if 0 < s3.rocketsToSpawn ∧ rnd.spawnRoll < 7 / 1000 + (s3.round : ℚ) * (2 / 1000) then
         spawnRocket { s3 with status := GameStatus.LOST } rnd
       else { s3 with status := GameStatus.LOST }) := by
    unfold checkOutcome
    rw [if_pos hall]
    by_cases hw : WIN_SCORE ≤ s3.score
    · simp [hw]
    · simp only [hw, if_false]
      by_cases hre : s3.rocketsToSpawn = 0 ∧ s3.rockets = [] ∧ s3.explosions = []
      · simp [hre]
      · simp [hre]
  rw [hco]
  by_cases hw : WIN_SCORE ≤ s3.score
  · rw [if_pos hw]
    exact ⟨fun _ => rfl, fun hlt _ => absurd hw (not_le.2 hlt), fun hlt _ => absurd hw (not_le.2 hlt)⟩
  · rw [if_neg hw]
    by_cases hre : s3.rocketsToSpawn = 0 ∧ s3.rockets.length = 0 ∧ s3.explosions.length = 0
    · rw [if_pos hre]
      exact ⟨fun hge => absurd hge hw, fun _ _ => rfl, fun _ hnc => absurd hre hnc⟩
    · rw [if_neg hre]
      by_cases hsp : 0 < s3.rocketsToSpawn ∧ rnd.spawnRoll < 7 / 1000 + (s3.round : ℚ) * (2 / 1000)
      · rw [if_pos hsp, spawnRocket_not_playing _ _ (by exact fun h => by cases h)]
        exact ⟨fun hge => absurd hge hw, fun _ hc => absurd hc hre, fun _ _ => rfl⟩
      · rw [if_neg hsp]
        exact ⟨fun hge => absurd hge hw, fun _ hc => absurd hc hre, fun _ _ => rfl⟩

/-- C1 as amended: when every turret is already destroyed at the start of a
playing frame, the LOST assignment happens, but the later outcome checks are
not suppressed and may overwrite it within the same frame — the final
status is WON whenever the post-frame score reaches the win threshold,
ROUND_END whenever the score is below the threshold and the spawn queue,
live rockets and live explosions are all empty, and LOST only otherwise. -/
theorem c1_lost_priority (s : GameState) (rnd : RandomInput)
    (hst : s.status = GameStatus.PLAYING)
    (hdes : s.turrets.all (fun t => t.destroyed) = true) :
    (WIN_SCORE ≤ (update s rnd).score → (update s rnd).status = GameStatus.WON) ∧
      ((update s rnd).score < WIN_SCORE →
        ((update s rnd).rocketsToSpawn = 0 ∧ (update s rnd).rockets.length = 0 ∧
            (update s rnd).explosions.length = 0) →
        (update s rnd).status = GameStatus.ROUND_END) ∧
      ((update s rnd).score < WIN_SCORE →
        ¬((update s rnd).rocketsToSpawn = 0 ∧ (update s rnd).rockets.length = 0 ∧
            (update s rnd).explosions.length = 0) →
        (update s rnd).status = GameStatus.LOST) := by
  have hup : update s rnd = checkOutcome (runPasses { gs := s, nextId := rnd.firstId }).gs rnd := by
    unfold update
    rw [if_pos hst]
  have hall :
      (runPasses { gs := s, nextId := rnd.firstId }).gs.turrets.all (fun t => t.destroyed) = true :=
    explosionLoop_all_destroyed _ _ _
      (missileLoop_all_destroyed _ _ _ (rocketLoop_all_destroyed _ _ _ hdes))
  rw [hup]
  exact checkOutcome_cases _ rnd hall

theorem forall_mem_set {α : Type} (P : α → Prop) (l : List α) (n : Nat) (x : α)
    (h : ∀ a ∈ l, P a) (hx : P x) : ∀ a ∈ l.set n x, P a := by
  intro a ha
  rcases List.mem_or_eq_of_mem_set ha with ha | rfl
  · exact h a ha
  · exact hx

theorem forall_mem_eraseIdx {α : Type} (P : α → Prop) (l : List α) (n : Nat)
    (h : ∀ a ∈ l, P a) : ∀ a ∈ l.eraseIdx n, P a :=
  fun a ha => h a (List.eraseIdx_subset l n ha)

theorem explosionInv_new (i : Nat) (p : Point) (m : ℚ) (hm : 0 < m) :
    ExplosionInv { id := i, pos := p, radius := 0, maxRadius := m, growing := true,
                   finished := false } := by
  refine ⟨le_refl 0, ?_, fun _ => hm, hm⟩
  have hsp : (0 : ℚ) < EXPLOSION_GROWTH_SPEED := by norm_num [EXPLOSION_GROWTH_SPEED]
  dsimp only
  linarith

theorem rocketStep_explosions_ok (u : UState) (k : Nat)
    (h : ∀ e ∈ u.gs.explosions, ExplosionInv e) :
    ∀ e ∈ (rocketStep u k).gs.explosions, ExplosionInv e := by
  unfold rocketStep
  cases hg : u.gs.rockets.get? k with
  | none => exact h
  | some r =>
    dsimp only
    split
    · intro e he
      rcases List.mem_append.1 he with he | he
      · exact h e he
      · rcases List.mem_singleton.1 he with rfl
        exact explosionInv_new _ _ _ (by norm_num [EXPLOSION_MAX_RADIUS])
    · exact h

theorem missileStep_explosions_ok (u : UState) (k : Nat)
    (h : ∀ e ∈ u.gs.explosions, ExplosionInv e) :
    ∀ e ∈ (missileStep u k).gs.explosions, ExplosionInv e := by
  unfold missileStep
  cases hg : u.gs.missiles.get? k with
  | none => exact h
  | some m =>
    dsimp only
    split
    · intro e he
      rcases List.mem_append.1 he with he | he
      · exact h e he
      · rcases List.mem_singleton.1 he with rfl
        exact explosionInv_new _ _ _ (by norm_num [EXPLOSION_MAX_RADIUS])
    · exact h

theorem collideStep_explosions_ok (epos : Point) (er : ℚ) (u : UState) (k : Nat)
    (h : ∀ e ∈ u.gs.explosions, ExplosionInv e) :
    ∀ e ∈ (collideStep epos er u k).gs.explosions, ExplosionInv e := by
  unfold collideStep
  cases hg : u.gs.rockets.get? k with
  | none => exact h
  | some r =>
    dsimp only
    split
    · intro e he
      rcases List.mem_append.1 he with he | he
      · exact h e he
      · rcases List.mem_singleton.1 he with rfl
        exact explosionInv_new _ _ _ (by norm_num [EXPLOSION_MAX_RADIUS])
    · exact h

theorem explosionStep_explosions_ok (u : UState) (k : Nat)
    (h : ∀ e ∈ u.gs.explosions, ExplosionInv e) :
    ∀ e ∈ (explosionStep u k).gs.explosions, ExplosionInv e := by
  unfold explosionStep
  cases hg : u.gs.explosions.get? k with
  | none => exact h
  | some e0 =>
    obtain ⟨h0, hlt, hgr, hmax⟩ := h e0 (List.get?_mem hg)
    have hsp : (0 : ℚ) < EXPLOSION_GROWTH_SPEED := by norm_num [EXPLOSION_GROWTH_SPEED]
    dsimp only
    cases hgrow : e0.growing with
    | true =>
      have hrad : e0.radius < e0.maxRadius := hgr hgrow
      simp only [hgrow, ite_true, ite_false, eq_self_iff_true]
      by_cases hfin : e0.finished = true
      · rw [if_pos hfin]
        exact forall_mem_eraseIdx _ _ _ h
      · rw [if_neg hfin]
        refine forEachLoop_pres (fun v => ∀ e ∈ v.gs.explosions, ExplosionInv e) _
          (fun v j hv => collideStep_explosions_ok _ _ v j hv) _ _ _ ?_
        refine forall_mem_set _ _ _ _ h ?_
        refine ⟨by dsimp only; linarith, by dsimp only; linarith, ?_, hmax⟩
        intro hg2
        dsimp only at hg2 ⊢
        by_cases hle : e0.maxRadius ≤ e0.radius + EXPLOSION_GROWTH_SPEED
        · rw [if_pos hle] at hg2
          cases hg2
        · linarith [not_le.1 hle]
    | false =>
      simp only [hgrow, Bool.false_eq_true, ite_true, ite_false, eq_self_iff_true]
      by_cases hf : (if e0.radius - EXPLOSION_GROWTH_SPEED ≤ 0 then true else e0.finished) = true
      · rw [if_pos hf]
        exact forall_mem_eraseIdx _ _ _ h
      · rw [if_neg hf]
        have hr0 : ¬(e0.radius - EXPLOSION_GROWTH_SPEED ≤ 0) := by
          intro hle
          simp [hle] at hf
        refine forEachLoop_pres (fun v => ∀ e ∈ v.gs.explosions, ExplosionInv e) _
          (fun v j hv => collideStep_explosions_ok _ _ v j hv) _ _ _ ?_
        refine forall_mem_set _ _ _ _ h ?_
        refine ⟨by dsimp only; linarith, by dsimp only; linarith, ?_, hmax⟩
        intro hg2
        dsimp only at hg2
        cases hg2

theorem runPasses_explosions_ok (u : UState)
    (h : ∀ e ∈ u.gs.explosions, ExplosionInv e) :
    ∀ e ∈ (runPasses u).gs.explosions, ExplosionInv e := by
  unfold runPasses
  refine forEachLoop_pres (fun v => ∀ e ∈ v.gs.explosions, ExplosionInv e) explosionStep
    (fun v j hv => explosionStep_explosions_ok v j hv) _ _ _ ?_
  refine forEachLoop_pres (fun v => ∀ e ∈ v.gs.explosions, ExplosionInv e) missileStep
    (fun v j hv => missileStep_explosions_ok v j hv) _ _ _ ?_
  exact forEachLoop_pres (fun v => ∀ e ∈ v.gs.explosions, ExplosionInv e) rocketStep
    (fun v j hv => rocketStep_explosions_ok v j hv) _ _ _ h

theorem spawnRocket_explosions (s : GameState) (rnd : RandomInput) :
    (spawnRocket s rnd).explosions = s.explosions := by
  unfold spawnRocket
  split
  · dsimp only
    split
    all_goals rfl
  · rfl

theorem checkOutcome_explosions (s3 : GameState) (rnd : RandomInput) :
    (checkOutcome s3 rnd).explosions = s3.explosions := by
  unfold checkOutcome
  dsimp only
  repeat' split
  all_goals first | rfl | rw [spawnRocket_explosions]

/-- C3 as amended: across a frame the code keeps every explosion radius in
the half-open band `[0, maxRadius + growthSpeed)` — growth can overshoot
`maxRadius` by strictly less than one growth increment before the growing
flag flips, and shrinking stops at 0 (the explosion is removed as soon as
its radius is ≤ 0), but the radius is not clamped to `maxRadius` itself. -/
theorem c3_radius_invariant (s : GameState) (rnd : RandomInput) (h : ExplosionsOk s) :
    ExplosionsOk (update s rnd) ∧
      ∀ e ∈ (update s rnd).explosions,
        0 ≤ e.radius ∧ e.radius < e.maxRadius + EXPLOSION_GROWTH_SPEED := by
  have hok : ExplosionsOk (update s rnd) := by
    unfold update
    split
    · intro e he
      rw [checkOutcome_explosions] at he
      exact runPasses_explosions_ok { gs := s, nextId := rnd.firstId } h e he
    · exact h
  exact ⟨hok, fun e he => ⟨(hok e he).1, (hok e he).2.1⟩⟩

/-- C3 witness: from the empty-explosion initial state, one frame preserves
the maintained radius band. -/
theorem c3_radius_invariant_witness :
    ExplosionsOk (update initGame rnd0) ∧
      ∀ e ∈ (update initGame rnd0).explosions,
        0 ≤ e.radius ∧ e.radius < e.maxRadius + EXPLOSION_GROWTH_SPEED :=
  c3_radius_invariant initGame rnd0 (by intro e he; simp [initGame] at he)

/-- C3 counterexample: in `c3s` every explosion radius lies in
`[0, maxRadius]` before the frame, but after one frame the growing explosion
sits at radius 40.5 > maxRadius = 40 (and that radius is the one the
rocket-collision test would use), so the claimed bound is violated. -/
theorem c3_radius_counterexample :
    SpecExplosionsOk c3s ∧ ¬ SpecExplosionsOk (update c3s rnd0) := by
  constructor
  · intro e he
    simp only [c3s] at he
    rcases List.mem_singleton.1 he with rfl
    norm_num
  · intro hcl
    have hm : (update c3s rnd0).explosions =
        [ { id := 0, pos := { x := 300, y := 300 }, radius := 81 / 2, maxRadius := 40,
            growing := false, finished := false } ] := by
      norm_num [update, runPasses, checkOutcome, forEachLoop, rocketStep, missileStep,
        explosionStep, collideStep, spawnRocket, c3s, rnd0, EXPLOSION_MAX_RADIUS,
        EXPLOSION_GROWTH_SPEED, WIN_SCORE, distLtRadius]
    have hb := hcl _ (by rw [hm]; exact List.mem_singleton.2 rfl)
    norm_num at hb

/-- C1 witness: at `c1ws` (all turrets destroyed, score below the threshold,
one rocket left to spawn) the frame does end LOST. -/
theorem c1_lost_priority_witness : (update c1ws rnd0).status = GameStatus.LOST := by
  apply (c1_lost_priority c1ws rnd0 rfl (by decide)).2.2
  · norm_num [update, runPasses, checkOutcome, forEachLoop, rocketStep, missileStep,
      explosionStep, collideStep, spawnRocket, c1ws, rnd0, WIN_SCORE]
  · norm_num [update, runPasses, checkOutcome, forEachLoop, rocketStep, missileStep,
      explosionStep, collideStep, spawnRocket, c1ws, rnd0, WIN_SCORE]



theorem findBestTurret_none_elim (x : ℚ) :
    ∀ (ts : List Turret) (i : Nat) (best : Option (Nat × ℚ)),
      findBestTurret x ts i best = none →
      best = none ∧ ∀ t ∈ ts, ¬(t.destroyed = false ∧ 0 < t.ammo) := by
  intro ts
  induction ts with
  | nil => intro i best h; exact ⟨h, by simp⟩
  | cons t rest ih =>
    intro i best h
    unfold findBestTurret at h
    dsimp only at h
    by_cases he : t.destroyed = false ∧ 0 < t.ammo
    · rw [if_pos he] at h
      exfalso
      cases best with
      | none =>
        have h' : findBestTurret x rest (i + 1) (some (i, |t.pos.x - x|)) = none := h
        exact Option.noConfusion (ih _ _ h').1
      | some p =>
        rcases p with ⟨bi, bd⟩
        have h' : findBestTurret x rest (i + 1)
            (if |t.pos.x - x| < bd then some (i, |t.pos.x - x|) else some (bi, bd)) = none := h
        by_cases hd : |t.pos.x - x| < bd
        · rw [if_pos hd] at h'
          exact Option.noConfusion (ih _ _ h').1
        · rw [if_neg hd] at h'
          exact Option.noConfusion (ih _ _ h').1
    · rw [if_neg he] at h
      obtain ⟨hb, hrest⟩ := ih _ _ h
      refine ⟨hb, ?_⟩
      intro t' ht'
      rcases List.mem_cons.1 ht' with rfl | ht'
      · exact he
      · exact hrest t' ht'

theorem findBestTurret_best_le (x : ℚ) :
    ∀ (ts : List Turret) (i bi : Nat) (bd : ℚ) (ci : Nat) (cd : ℚ),
      findBestTurret x ts i (some (bi, bd)) = some (ci, cd) →
      cd ≤ bd ∧ (cd = bd → ci = bi) := by
  intro ts
  induction ts with
  | nil =>
    intro i bi bd ci cd h
    have h' : some (bi, bd) = some (ci, cd) := h
    rw [Option.some.injEq, Prod.mk.injEq] at h'
    obtain ⟨rfl, rfl⟩ := h'
    exact ⟨le_refl _, fun _ => rfl⟩
  | cons t rest ih =>
    intro i bi bd ci cd h
    unfold findBestTurret at h
    dsimp only at h
    by_cases he : t.destroyed = false ∧ 0 < t.ammo
    · rw [if_pos he] at h
      have h' : findBestTurret x rest (i + 1)
          (if |t.pos.x - x| < bd then some (i, |t.pos.x - x|) else some (bi, bd)) = some (ci, cd) := h
      by_cases hd : |t.pos.x - x| < bd
      · rw [if_pos hd] at h'
        obtain ⟨h1, h2⟩ := ih _ _ _ _ _ h'
        refine ⟨by linarith, ?_⟩
        intro hcd
        exfalso
        rw [hcd] at h1
        linarith
      · rw [if_neg hd] at h'
        exact ih _ _ _ _ _ h'
    · rw [if_neg he] at h
      exact ih _ _ _ _ _ h

theorem findBestTurret_origin (x : ℚ) :
    ∀ (ts : List Turret) (i : Nat) (best : Option (Nat × ℚ)) (ci : Nat) (cd : ℚ),
      findBestTurret x ts i best = some (ci, cd) →
      best = some (ci, cd) ∨
        ∃ j t, ts.get? j = some t ∧ (t.destroyed = false ∧ 0 < t.ammo) ∧ ci = i + j ∧
          cd = |t.pos.x - x| := by
  intro ts
  induction ts with
  | nil => intro i best ci cd h; exact Or.inl h
  | cons t rest ih =>
    intro i best ci cd h
    unfold findBestTurret at h
    dsimp only at h
    by_cases he : t.destroyed = false ∧ 0 < t.ammo
    · rw [if_pos he] at h
      cases best with
      | none =>
        have h' : findBestTurret x rest (i + 1) (some (i, |t.pos.x - x|)) = some (ci, cd) := h
        rcases ih _ _ _ _ h' with hb | ⟨j, t', hj, he', hci, hcd⟩
        · right
          rw [Option.some.injEq, Prod.mk.injEq] at hb
          obtain ⟨rfl, rfl⟩ := hb
          exact ⟨0, t, rfl, he, by omega, rfl⟩
        · right
          exact ⟨j + 1, t', by simpa using hj, he', by omega, hcd⟩
      | some p =>
        rcases p with ⟨bi, bd⟩
        have h' : findBestTurret x rest (i + 1)
            (if |t.pos.x - x| < bd then some (i, |t.pos.x - x|) else some (bi, bd)) = some (ci, cd) := h
        by_cases hd : |t.pos.x - x| < bd
        · rw [if_pos hd] at h'
          rcases ih _ _ _ _ h' with hb | ⟨j, t', hj, he', hci, hcd⟩
          · right
            rw [Option.some.injEq, Prod.mk.injEq] at hb
            obtain ⟨rfl, rfl⟩ := hb
            exact ⟨0, t, rfl, he, by omega, rfl⟩
          · right
            exact ⟨j + 1, t', by simpa using hj, he', by omega, hcd⟩
        · rw [if_neg hd] at h'
          rcases ih _ _ _ _ h' with hb | ⟨j, t', hj, he', hci, hcd⟩
          · exact Or.inl hb
          · right
            exact ⟨j + 1, t', by simpa using hj, he', by omega, hcd⟩
    · rw [if_neg he] at h
      rcases ih _ _ _ _ h with hb | ⟨j, t', hj, he', hci, hcd⟩
      · exact Or.inl hb
      · right
        exact ⟨j + 1, t', by simpa using hj, he', by omega, hcd⟩



theorem findBestTurret_min (x : ℚ) :
    ∀ (ts : List Turret) (i : Nat) (best : Option (Nat × ℚ)) (ci : Nat) (cd : ℚ),
      (∀ bi bd, best = some (bi, bd) → bi ≤ i) →
      findBestTurret x ts i best = some (ci, cd) →
      ∀ j t, ts.get? j = some t → t.destroyed = false → 0 < t.ammo →
        cd ≤ |t.pos.x - x| ∧ (|t.pos.x - x| = cd → ci ≤ i + j) := by
  intro ts
  induction ts with
  | nil =>
    intro i best ci cd _ _ j t hj
    simp at hj
  | cons t0 rest ih =>
    intro i best ci cd hb h j t hj ht1 ht2
    unfold findBestTurret at h
    dsimp only at h
    by_cases he : t0.destroyed = false ∧ 0 < t0.ammo
    · rw [if_pos he] at h
      cases best with
      | none =>
        have h' : findBestTurret x rest (i + 1) (some (i, |t0.pos.x - x|)) = some (ci, cd) := h
        cases j with
        | zero =>
          have ht0 : t0 = t := by simpa using hj
          subst ht0
          have hstep := findBestTurret_best_le x rest (i + 1) i |t0.pos.x - x| ci cd h'
          refine ⟨hstep.1, ?_⟩
          intro heq
          have hci : ci = i := hstep.2 heq.symm
          omega
        | succ j' =>
          have hj' : rest.get? j' = some t := by simpa using hj
          have hpre : ∀ bi bd, (some (i, |t0.pos.x - x|) : Option (Nat × ℚ)) = some (bi, bd) → bi ≤ i + 1 := by
            intro bi bd hbd
            rw [Option.some.injEq, Prod.mk.injEq] at hbd
            omega
          have hres := ih (i + 1) _ ci cd hpre h' j' t hj' ht1 ht2
          exact ⟨hres.1, fun hh => by have hgoal := hres.2 hh; omega⟩
      | some p =>
        rcases p with ⟨bi, bd⟩
        have hbi : bi ≤ i := hb bi bd rfl
        have h' : findBestTurret x rest (i + 1)
            (if |t0.pos.x - x| < bd then some (i, |t0.pos.x - x|) else some (bi, bd)) = some (ci, cd) := h
        by_cases hd : |t0.pos.x - x| < bd
        · rw [if_pos hd] at h'
          cases j with
          | zero =>
            have ht0 : t0 = t := by simpa using hj
            subst ht0
            have hstep := findBestTurret_best_le x rest (i + 1) i |t0.pos.x - x| ci cd h'
            refine ⟨hstep.1, ?_⟩
            intro heq
            have hci : ci = i := hstep.2 heq.symm
            omega
          | succ j' =>
            have hj' : rest.get? j' = some t := by simpa using hj
            have hpre : ∀ bi' bd', (some (i, |t0.pos.x - x|) : Option (Nat × ℚ)) = some (bi', bd') → bi' ≤ i + 1 := by
              intro bi' bd' hbd
              rw [Option.some.injEq, Prod.mk.injEq] at hbd
              omega
            have hres := ih (i + 1) _ ci cd hpre h' j' t hj' ht1 ht2
            exact ⟨hres.1, fun hh => by have hgoal := hres.2 hh; omega⟩
        · rw [if_neg hd] at h'
          have hble : bd ≤ |t0.pos.x - x| := not_lt.1 hd
          have hstep := findBestTurret_best_le x rest (i + 1) bi bd ci cd h'
          cases j with
          | zero =>
            have ht0 : t0 = t := by simpa using hj
            subst ht0
            refine ⟨le_trans hstep.1 hble, ?_⟩
            intro heq
            have hcdbd : cd = bd := le_antisymm hstep.1 (heq ▸ hble)
            have hci : ci = bi := hstep.2 hcdbd
            omega
          | succ j' =>
            have hj' : rest.get? j' = some t := by simpa using hj
            have hpre : ∀ bi' bd', (some (bi, bd) : Option (Nat × ℚ)) = some (bi', bd') → bi' ≤ i + 1 := by
              intro bi' bd' hbd
              rw [Option.some.injEq, Prod.mk.injEq] at hbd
              omega
            have hres := ih (i + 1) _ ci cd hpre h' j' t hj' ht1 ht2
            exact ⟨hres.1, fun hh => by have hgoal := hres.2 hh; omega⟩
    · rw [if_neg he] at h
      cases j with
      | zero =>
        have ht0 : t0 = t := by simpa using hj
        subst ht0
        exact absurd ⟨ht1, ht2⟩ he
      | succ j' =>
        have hj' : rest.get? j' = some t := by simpa using hj
        have hpre : ∀ bi bd, best = some (bi, bd) → bi ≤ i + 1 := by
          intro bi bd hbd
          exact le_trans (hb bi bd hbd) (by omega)
        have hres := ih (i + 1) best ci cd hpre h j' t hj' ht1 ht2
        exact ⟨hres.1, fun hh => by have hgoal := hres.2 hh; omega⟩



/-- C5 as amended: while the status is PLAYING, whenever at least one turret
is intact with positive ammo, the click fires: the engine picks an eligible
turret of minimal horizontal distance to the click, earliest in storage
order on an exact tie, decrements its ammo by one, and appends exactly one
missile starting at that turret's position, targeting the click point, with
progress 0 and the fixed missile speed; with no eligible turret (or outside
PLAYING) the state is unchanged. -/
theorem c5_fire_nearest (s : GameState) (click : Point) (mid : Nat)
    (hst : s.status = GameStatus.PLAYING)
    (helig : ∃ t ∈ s.turrets, t.destroyed = false ∧ 0 < t.ammo) :
    ∃ i t, s.turrets.get? i = some t ∧ t.destroyed = false ∧ 0 < t.ammo ∧
      (∀ j tj, s.turrets.get? j = some tj → tj.destroyed = false → 0 < tj.ammo →
        |t.pos.x - click.x| ≤ |tj.pos.x - click.x| ∧
          (|tj.pos.x - click.x| = |t.pos.x - click.x| → i ≤ j)) ∧
      fireInterceptor s click mid =
        { s with
          turrets := s.turrets.set i { t with ammo := t.ammo - 1 }
          missiles := s.missiles ++
            [ { id := mid, pos := t.pos, start := t.pos, target := click,
                progress := 0, speed := MISSILE_SPEED, sourceTurretIndex := i } ] } := by
  rcases hfb : findBestTurret click.x s.turrets 0 none with _ | ⟨ci, cd⟩
  · exfalso
    obtain ⟨t, ht, he⟩ := helig
    obtain ⟨_, hall⟩ := findBestTurret_none_elim click.x s.turrets 0 none hfb
    exact hall t ht he
  · rcases findBestTurret_origin click.x s.turrets 0 none ci cd hfb with hb | ⟨j, t, hj, he, hci, hcd⟩
    · cases hb
    · subst hcd
      have hget : s.turrets.get? ci = some t := by rw [show ci = j by omega]; exact hj
      have hmin := findBestTurret_min click.x s.turrets 0 none ci |t.pos.x - click.x|
        (by intro bi bd hbd; cases hbd) hfb
      refine ⟨ci, t, hget, he.1, he.2, ?_, ?_⟩
      · intro j' tj hj' h1 h2
        obtain ⟨ha, hbnd⟩ := hmin j' tj hj' h1 h2
        exact ⟨ha, fun hh => by have hb2 := hbnd hh; omega⟩
      · unfold fireInterceptor
        rw [if_pos hst, hfb]
        dsimp only
        rw [List.getD_eq_get?, hget]
        rfl



theorem rocketStep_score (u : UState) (k : Nat) : (rocketStep u k).gs.score = u.gs.score := by
  unfold rocketStep
  cases u.gs.rockets.get? k with
  | none => rfl
  | some r => dsimp only; split <;> rfl

theorem missileStep_score (u : UState) (k : Nat) : (missileStep u k).gs.score = u.gs.score := by
  unfold missileStep
  cases u.gs.missiles.get? k with
  | none => rfl
  | some m => dsimp only; split <;> rfl

theorem collideStep_score20 (base : ℤ) (epos : Point) (er : ℚ) (u : UState) (k : Nat)
    (h : ∃ m : ℕ, u.gs.score = base + 20 * m) :
    ∃ m : ℕ, (collideStep epos er u k).gs.score = base + 20 * m := by
  unfold collideStep
  cases u.gs.rockets.get? k with
  | none => exact h
  | some r =>
    dsimp only
    split
    · obtain ⟨m, hm⟩ := h
      refine ⟨m + 1, ?_⟩
      dsimp only
      rw [hm]
      push_cast
      ring
    · exact h

theorem explosionStep_score20 (base : ℤ) (u : UState) (k : Nat)
    (h : ∃ m : ℕ, u.gs.score = base + 20 * m) :
    ∃ m : ℕ, (explosionStep u k).gs.score = base + 20 * m := by
  unfold explosionStep
  cases u.gs.explosions.get? k with
  | none => exact h
  | some e =>
    dsimp only
    repeat' split
    all_goals first
      | exact h
      | exact forEachLoop_pres (fun v => ∃ m : ℕ, v.gs.score = base + 20 * m) _
          (fun v j hv => collideStep_score20 base _ _ v j hv) _ _ _ h

theorem spawnRocket_score (s : GameState) (rnd : RandomInput) :
    (spawnRocket s rnd).score = s.score := by
  unfold spawnRocket
  split
  · dsimp only
    split
    all_goals rfl
  · rfl

theorem checkOutcome_score (s3 : GameState) (rnd : RandomInput) :
    (checkOutcome s3 rnd).score = s3.score := by
  unfold checkOutcome
  dsimp only
  repeat' split
  all_goals first | rfl | rw [spawnRocket_score]

theorem fireInterceptor_score (s : GameState) (click : Point) (mid : Nat) :
    (fireInterceptor s click mid).score = s.score := by
  unfold fireInterceptor
  split
  · cases findBestTurret click.x s.turrets 0 none with
    | none => rfl
    | some p => rcases p with ⟨i, d⟩; rfl
  · rfl

theorem update_score20 (s : GameState) (rnd : RandomInput) :
    ∃ m : ℕ, (update s rnd).score = s.score + 20 * m := by
  unfold update
  split
  · rw [checkOutcome_score]
    unfold runPasses
    refine forEachLoop_pres (fun v => ∃ m : ℕ, v.gs.score = s.score + 20 * m) explosionStep
      (fun v j hv => explosionStep_score20 s.score v j hv) _ _ _ ?_
    refine forEachLoop_pres (fun v => ∃ m : ℕ, v.gs.score = s.score + 20 * m) missileStep
      (fun v j hv => by simpa only [missileStep_score] using hv) _ _ _ ?_
    refine forEachLoop_pres (fun v => ∃ m : ℕ, v.gs.score = s.score + 20 * m) rocketStep
      (fun v j hv => by simpa only [rocketStep_score] using hv) _ _ _ ?_
    exact ⟨0, by simp⟩
  · exact ⟨0, by simp⟩



theorem rocketStep_ammo (u : UState) (k : Nat)
    (h : ∀ t ∈ u.gs.turrets, 0 ≤ t.ammo ∧ t.ammo ≤ t.maxAmmo) :
    ∀ t ∈ (rocketStep u k).gs.turrets, 0 ≤ t.ammo ∧ t.ammo ≤ t.maxAmmo := by
  unfold rocketStep
  cases hg : u.gs.rockets.get? k with
  | none => exact h
  | some r =>
    dsimp only
    split
    · intro t ht
      rcases List.mem_map.1 ht with ⟨t0, ht0, rfl⟩
      have h0 := h t0 ht0
      split
      · exact h0
      · exact h0
    · exact h

theorem spawnRocket_turrets (s : GameState) (rnd : RandomInput) :
    (spawnRocket s rnd).turrets = s.turrets := by
  unfold spawnRocket
  split
  · dsimp only
    split
    all_goals rfl
  · rfl

theorem checkOutcome_turrets (s3 : GameState) (rnd : RandomInput) :
    (checkOutcome s3 rnd).turrets = s3.turrets := by
  unfold checkOutcome
  dsimp only
  repeat' split
  all_goals first | rfl | rw [spawnRocket_turrets]

theorem update_ammo (s : GameState) (rnd : RandomInput) (h : AmmoOk s) :
    AmmoOk (update s rnd) := by
  unfold update
  split
  · intro t ht
    rw [checkOutcome_turrets] at ht
    revert t ht
    unfold runPasses
    refine forEachLoop_pres (fun v => ∀ t ∈ v.gs.turrets, 0 ≤ t.ammo ∧ t.ammo ≤ t.maxAmmo)
      explosionStep (fun v j hv => by simpa only [explosionStep_turrets] using hv) _ _ _ ?_
    refine forEachLoop_pres (fun v => ∀ t ∈ v.gs.turrets, 0 ≤ t.ammo ∧ t.ammo ≤ t.maxAmmo)
      missileStep (fun v j hv => by simpa only [missileStep_turrets] using hv) _ _ _ ?_
    exact forEachLoop_pres (fun v => ∀ t ∈ v.gs.turrets, 0 ≤ t.ammo ∧ t.ammo ≤ t.maxAmmo)
      rocketStep (fun v j hv => rocketStep_ammo v j hv) _ _ _ h
  · exact h

theorem fireInterceptor_ammo (s : GameState) (click : Point) (mid : Nat) (h : AmmoOk s) :
    AmmoOk (fireInterceptor s click mid) := by
  unfold fireInterceptor
  split
  · rcases hfb : findBestTurret click.x s.turrets 0 none with _ | ⟨ci, cd⟩
    · exact h
    · rcases findBestTurret_origin click.x s.turrets 0 none ci cd hfb with hb | ⟨j, t, hj, he, hci, hcd⟩
      · cases hb
      · have hget : s.turrets.get? ci = some t := by rw [show ci = j by omega]; exact hj
        have hgd : s.turrets.getD ci
            { pos := { x := 0, y := 0 }, ammo := 0, maxAmmo := 0, destroyed := false } = t := by
          rw [List.getD_eq_get?, hget]
          rfl
        intro t' ht'
        dsimp only at ht'
        rw [hgd] at ht'
        rcases List.mem_or_eq_of_mem_set ht' with hmem | rfl
        · exact h t' hmem
        · have hti := h t (List.get?_mem hget)
          have hpos := he.2
          exact ⟨by dsimp only; omega, by dsimp only; omega⟩
  · exact h

theorem nextRound_ammo (s : GameState) (h : AmmoOk s) : AmmoOk (nextRound s) := by
  intro t ht
  simp only [nextRound] at ht
  rcases List.mem_map.1 ht with ⟨t0, ht0, rfl⟩
  have h0 := h t0 ht0
  by_cases hd : t0.destroyed = false
  · rw [if_pos hd]
    exact ⟨by dsimp only; omega, by dsimp only; omega⟩
  · rw [if_neg hd]
    exact h0

theorem spawnRocket_ammo (s : GameState) (rnd : RandomInput) (h : AmmoOk s) :
    AmmoOk (spawnRocket s rnd) := by
  intro t ht
  rw [spawnRocket_turrets] at ht
  exact h t ht



theorem lerpOk_zero (p t : Point) : lerpOk p p t 0 := by
  constructor <;> ring

theorem rocketStep_missiles (u : UState) (k : Nat) :
    (rocketStep u k).gs.missiles = u.gs.missiles := by
  unfold rocketStep
  cases u.gs.rockets.get? k with
  | none => rfl
  | some r => dsimp only; split <;> rfl

theorem collideStep_missiles (epos : Point) (er : ℚ) (u : UState) (k : Nat) :
    (collideStep epos er u k).gs.missiles = u.gs.missiles := by
  unfold collideStep
  cases u.gs.rockets.get? k with
  | none => rfl
  | some r => dsimp only; split <;> rfl

theorem explosionStep_missiles (u : UState) (k : Nat) :
    (explosionStep u k).gs.missiles = u.gs.missiles := by
  unfold explosionStep
  cases u.gs.explosions.get? k with
  | none => rfl
  | some e =>
    dsimp only
    repeat' split
    all_goals first
      | rfl
      | exact forEachLoop_pres (fun v => v.gs.missiles = u.gs.missiles) _
          (fun v j hv => by simpa only [collideStep_missiles] using hv) _ _ _ rfl

theorem collideStep_rockets_pred (Q : EnemyRocket → Prop) (epos : Point) (er : ℚ)
    (u : UState) (k : Nat) (h : ∀ r ∈ u.gs.rockets, Q r) :
    ∀ r ∈ (collideStep epos er u k).gs.rockets, Q r := by
  unfold collideStep
  cases u.gs.rockets.get? k with
  | none => exact h
  | some r =>
    dsimp only
    split
    · exact fun r' hr' => h r' (List.eraseIdx_subset _ _ hr')
    · exact h

theorem explosionStep_rockets_pred (Q : EnemyRocket → Prop) (u : UState) (k : Nat)
    (h : ∀ r ∈ u.gs.rockets, Q r) :
    ∀ r ∈ (explosionStep u k).gs.rockets, Q r := by
  unfold explosionStep
  cases u.gs.explosions.get? k with
  | none => exact h
  | some e =>
    dsimp only
    repeat' split
    all_goals first
      | exact h
      | exact forEachLoop_pres (fun v => ∀ r ∈ v.gs.rockets, Q r) _
          (fun v j hv => collideStep_rockets_pred Q _ _ v j hv) _ _ _ h

theorem missileStep_rockets (u : UState) (k : Nat) :
    (missileStep u k).gs.rockets = u.gs.rockets := by
  unfold missileStep
  cases u.gs.missiles.get? k with
  | none => rfl
  | some m => dsimp only; split <;> rfl

theorem rocketStep_proj (s0 : GameState) (hsp : ∀ r ∈ s0.rockets, 0 ≤ r.speed)
    (u : UState) (k : Nat)
    (h : ∀ r ∈ u.gs.rockets, lerpOk r.pos r.start r.target r.progress ∧
      ∃ r0 ∈ s0.rockets, r0.id = r.id ∧ r0.progress ≤ r.progress ∧ r0.speed = r.speed) :
    ∀ r ∈ (rocketStep u k).gs.rockets, lerpOk r.pos r.start r.target r.progress ∧
      ∃ r0 ∈ s0.rockets, r0.id = r.id ∧ r0.progress ≤ r.progress ∧ r0.speed = r.speed := by
  unfold rocketStep
  cases hg : u.gs.rockets.get? k with
  | none => exact h
  | some r =>
    dsimp only
    split
    · exact fun r' hr' => h r' (List.eraseIdx_subset _ _ hr')
    · refine forall_mem_set _ _ _ _ h ?_
      obtain ⟨hlerp, r0, hr0mem, hid, hprog, hspd⟩ := h r (List.get?_mem hg)
      have h0 := hsp r0 hr0mem
      rw [hspd] at h0
      refine ⟨⟨rfl, rfl⟩, r0, hr0mem, hid, ?_, hspd⟩
      dsimp only
      linarith

theorem missileStep_proj (s0 : GameState) (hsp : ∀ m ∈ s0.missiles, 0 ≤ m.speed)
    (u : UState) (k : Nat)
    (h : ∀ m ∈ u.gs.missiles, lerpOk m.pos m.start m.target m.progress ∧
      ∃ m0 ∈ s0.missiles, m0.id = m.id ∧ m0.progress ≤ m.progress ∧ m0.speed = m.speed) :
    ∀ m ∈ (missileStep u k).gs.missiles, lerpOk m.pos m.start m.target m.progress ∧
      ∃ m0 ∈ s0.missiles, m0.id = m.id ∧ m0.progress ≤ m.progress ∧ m0.speed = m.speed := by
  unfold missileStep
  cases hg : u.gs.missiles.get? k with
  | none => exact h
  | some m =>
    dsimp only
    split
    · exact fun m' hm' => h m' (List.eraseIdx_subset _ _ hm')
    · refine forall_mem_set _ _ _ _ h ?_
      obtain ⟨hlerp, m0, hm0mem, hid, hprog, hspd⟩ := h m (List.get?_mem hg)
      have h0 := hsp m0 hm0mem
      rw [hspd] at h0
      refine ⟨⟨rfl, rfl⟩, m0, hm0mem, hid, ?_, hspd⟩
      dsimp only
      linarith



theorem spawnRocket_rockets_cases (s : GameState) (rnd : RandomInput) :
    (spawnRocket s rnd).rockets = s.rockets ∨
      ∃ nr, (spawnRocket s rnd).rockets = s.rockets ++ [nr] ∧ nr.progress = 0 ∧
        nr.pos = nr.start := by
  unfold spawnRocket
  split
  · dsimp only
    split
    · exact Or.inl rfl
    · exact Or.inr ⟨_, rfl, rfl, rfl⟩
  · exact Or.inl rfl

theorem spawnRocket_missiles (s : GameState) (rnd : RandomInput) :
    (spawnRocket s rnd).missiles = s.missiles := by
  unfold spawnRocket
  split
  · dsimp only
    split
    all_goals rfl
  · rfl

theorem checkOutcome_rockets_cases (s3 : GameState) (rnd : RandomInput) :
    (checkOutcome s3 rnd).rockets = s3.rockets ∨
      ∃ nr, (checkOutcome s3 rnd).rockets = s3.rockets ++ [nr] ∧ nr.progress = 0 ∧
        nr.pos = nr.start := by
  unfold checkOutcome
  dsimp only
  repeat' split
  all_goals first | exact Or.inl rfl | exact spawnRocket_rockets_cases _ _

theorem checkOutcome_missiles (s3 : GameState) (rnd : RandomInput) :
    (checkOutcome s3 rnd).missiles = s3.missiles := by
  unfold checkOutcome
  dsimp only
  repeat' split
  all_goals first | rfl | rw [spawnRocket_missiles]

theorem runPasses_rockets_inv (s : GameState) (nid : Nat)
    (hpos : ∀ r ∈ s.rockets, lerpOk r.pos r.start r.target r.progress)
    (hsp : ∀ r ∈ s.rockets, 0 ≤ r.speed) :
    ∀ r ∈ (runPasses { gs := s, nextId := nid }).gs.rockets,
      lerpOk r.pos r.start r.target r.progress ∧
        ∃ r0 ∈ s.rockets, r0.id = r.id ∧ r0.progress ≤ r.progress ∧ r0.speed = r.speed := by
  unfold runPasses
  refine forEachLoop_pres (fun v => ∀ r ∈ v.gs.rockets,
      lerpOk r.pos r.start r.target r.progress ∧
        ∃ r0 ∈ s.rockets, r0.id = r.id ∧ r0.progress ≤ r.progress ∧ r0.speed = r.speed)
    explosionStep (fun v j hv => explosionStep_rockets_pred _ v j hv) _ _ _ ?_
  refine forEachLoop_pres (fun v => ∀ r ∈ v.gs.rockets,
      lerpOk r.pos r.start r.target r.progress ∧
        ∃ r0 ∈ s.rockets, r0.id = r.id ∧ r0.progress ≤ r.progress ∧ r0.speed = r.speed)
    missileStep (fun v j hv => by simpa only [missileStep_rockets] using hv) _ _ _ ?_
  refine forEachLoop_pres (fun v => ∀ r ∈ v.gs.rockets,
      lerpOk r.pos r.start r.target r.progress ∧
        ∃ r0 ∈ s.rockets, r0.id = r.id ∧ r0.progress ≤ r.progress ∧ r0.speed = r.speed)
    rocketStep (fun v j hv => rocketStep_proj s hsp v j hv) _ _ _ ?_
  exact fun r hr => ⟨hpos r hr, r, hr, rfl, le_refl _, rfl⟩

theorem runPasses_missiles_inv (s : GameState) (nid : Nat)
    (hpos : ∀ m ∈ s.missiles, lerpOk m.pos m.start m.target m.progress)
    (hsp : ∀ m ∈ s.missiles, 0 ≤ m.speed) :
    ∀ m ∈ (runPasses { gs := s, nextId := nid }).gs.missiles,
      lerpOk m.pos m.start m.target m.progress ∧
        ∃ m0 ∈ s.missiles, m0.id = m.id ∧ m0.progress ≤ m.progress ∧ m0.speed = m.speed := by
  unfold runPasses
  refine forEachLoop_pres (fun v => ∀ m ∈ v.gs.missiles,
      lerpOk m.pos m.start m.target m.progress ∧
        ∃ m0 ∈ s.missiles, m0.id = m.id ∧ m0.progress ≤ m.progress ∧ m0.speed = m.speed)
    explosionStep (fun v j hv => by simpa only [explosionStep_missiles] using hv) _ _ _ ?_
  refine forEachLoop_pres (fun v => ∀ m ∈ v.gs.missiles,
      lerpOk m.pos m.start m.target m.progress ∧
        ∃ m0 ∈ s.missiles, m0.id = m.id ∧ m0.progress ≤ m.progress ∧ m0.speed = m.speed)
    missileStep (fun v j hv => missileStep_proj s hsp v j hv) _ _ _ ?_
  refine forEachLoop_pres (fun v => ∀ m ∈ v.gs.missiles,
      lerpOk m.pos m.start m.target m.progress ∧
        ∃ m0 ∈ s.missiles, m0.id = m.id ∧ m0.progress ≤ m.progress ∧ m0.speed = m.speed)
    rocketStep (fun v j hv => by simpa only [rocketStep_missiles] using hv) _ _ _ ?_
  exact fun m hm => ⟨hpos m hm, m, hm, rfl, le_refl _, rfl⟩



/-- C7: every live projectile always sits at the linear interpolation of its
start and target at its current progress — the invariant is preserved by the
frame update, by firing and by spawning, every frame-surviving projectile
descends from a frame-start projectile with the same id and a progress that
did not decrease, and every projectile that does not is freshly created at
progress 0. -/
theorem c7_projectile_invariants (s : GameState) (rnd : RandomInput) (click : Point) (mid : Nat)
    (hpos : PosOkAll s) (hspd : SpeedsNonneg s) :
    PosOkAll (update s rnd) ∧ PosOkAll (fireInterceptor s click mid) ∧
      PosOkAll (spawnRocket s rnd) ∧
      (∀ r ∈ (update s rnd).rockets,
        (∃ r0 ∈ s.rockets, r0.id = r.id ∧ r0.progress ≤ r.progress) ∨ r.progress = 0) ∧
      (∀ m ∈ (update s rnd).missiles,
        ∃ m0 ∈ s.missiles, m0.id = m.id ∧ m0.progress ≤ m.progress) := by
  have hR := runPasses_rockets_inv s rnd.firstId hpos.1 hspd.1
  have hM := runPasses_missiles_inv s rnd.firstId hpos.2 hspd.2
  refine ⟨?_, ?_, ?_, ?_, ?_⟩
  · unfold update
    split
    · constructor
      · rcases checkOutcome_rockets_cases (runPasses { gs := s, nextId := rnd.firstId }).gs rnd
          with hc | ⟨nr, hc, hp, hps⟩
        · rw [hc]
          exact fun r hr => (hR r hr).1
        · rw [hc]
          intro r hr
          rcases List.mem_append.1 hr with hr | hr
          · exact (hR r hr).1
          · rcases List.mem_singleton.1 hr with rfl
            rw [lerpOk, hp, hps]
            exact lerpOk_zero _ _
      · intro m hm
        rw [checkOutcome_missiles] at hm
        exact (hM m hm).1
    · exact hpos
  · unfold fireInterceptor
    split
    · rcases hfb : findBestTurret click.x s.turrets 0 none with _ | ⟨ci, cd⟩
      · exact hpos
      · dsimp only
        constructor
        · exact hpos.1
        · intro m hm
          rcases List.mem_append.1 hm with hm | hm
          · exact hpos.2 m hm
          · rcases List.mem_singleton.1 hm with rfl
            exact lerpOk_zero _ _
    · exact hpos
  · constructor
    · rcases spawnRocket_rockets_cases s rnd with hc | ⟨nr, hc, hp, hps⟩
      · rw [hc]
        exact hpos.1
      · rw [hc]
        intro r hr
        rcases List.mem_append.1 hr with hr | hr
        · exact hpos.1 r hr
        · rcases List.mem_singleton.1 hr with rfl
          rw [lerpOk, hp, hps]
          exact lerpOk_zero _ _
    · rw [spawnRocket_missiles]
      exact hpos.2
  · unfold update
    split
    · rcases checkOutcome_rockets_cases (runPasses { gs := s, nextId := rnd.firstId }).gs rnd
        with hc | ⟨nr, hc, hp, hps⟩
      · rw [hc]
        intro r hr
        obtain ⟨_, r0, hmem, hid, hprog, _⟩ := hR r hr
        exact Or.inl ⟨r0, hmem, hid, hprog⟩
      · rw [hc]
        intro r hr
        rcases List.mem_append.1 hr with hr | hr
        · obtain ⟨_, r0, hmem, hid, hprog, _⟩ := hR r hr
          exact Or.inl ⟨r0, hmem, hid, hprog⟩
        · rcases List.mem_singleton.1 hr with rfl
          exact Or.inr hp
    · exact fun r hr => Or.inl ⟨r, hr, rfl, le_refl _⟩
  · unfold update
    split
    · intro m hm
      rw [checkOutcome_missiles] at hm
      obtain ⟨_, m0, hmem, hid, hprog, _⟩ := hM m hm
      exact ⟨m0, hmem, hid, hprog⟩
    · exact fun m hm => ⟨m, hm, rfl, le_refl _⟩



/-- C8: the score never decreases — a frame update adds exactly 20 points
per destroyed rocket (a nonnegative multiple of 20), firing leaves the score
unchanged, and the round transition adds exactly the nonnegative ammo bonus
(5 per leftover unit on surviving turrets). -/
theorem c8_score_monotone (s : GameState) (rnd : RandomInput) (click : Point) (mid : Nat)
    (ham : ∀ t ∈ s.turrets, 0 ≤ t.ammo) :
    (∃ m : ℕ, (update s rnd).score = s.score + 20 * m) ∧
      s.score ≤ (update s rnd).score ∧
      (fireInterceptor s click mid).score = s.score ∧
      (nextRound s).score
        = s.score + 5 * ((s.turrets.filter (fun t => !t.destroyed)).map (fun t => t.ammo)).sum ∧
      s.score ≤ (nextRound s).score := by
  obtain ⟨m, hm⟩ := update_score20 s rnd
  have hnr : (nextRound s).score
      = s.score + 5 * ((s.turrets.filter (fun t => !t.destroyed)).map (fun t => t.ammo)).sum := by
    show s.score + _ = _
    rw [foldl_bonus]
    ring
  have hsum : 0 ≤ ((s.turrets.filter (fun t => !t.destroyed)).map (fun t => t.ammo)).sum := by
    apply List.sum_nonneg
    intro a ha
    rcases List.mem_map.1 ha with ⟨t, htf, rfl⟩
    exact ham t (List.mem_of_mem_filter htf)
  have hm0 : (0 : ℤ) ≤ 20 * m := by positivity
  refine ⟨⟨m, hm⟩, by rw [hm]; linarith, fireInterceptor_score s click mid, hnr, by rw [hnr]; linarith⟩

theorem c8_score_monotone_witness :
    (∃ m : ℕ, (update initGame rnd0).score = initGame.score + 20 * m) ∧
      initGame.score ≤ (update initGame rnd0).score ∧
      (fireInterceptor initGame clickPt 7).score = initGame.score ∧
      (nextRound initGame).score
        = initGame.score
            + 5 * ((initGame.turrets.filter (fun t => !t.destroyed)).map (fun t => t.ammo)).sum ∧
      initGame.score ≤ (nextRound initGame).score :=
  c8_score_monotone initGame rnd0 clickPt 7 (by decide)

/-- C10: turret ammo always satisfies `0 ≤ ammo ≤ maxAmmo`: it holds after
initialize, and it is preserved by the frame update (which never touches
ammo), by firing (which requires `ammo > 0` before decrementing), by the
round transition (which sets ammo to exactly `maxAmmo` on survivors), and by
rocket spawning. -/
theorem c10_ammo_invariant (s : GameState) (rnd : RandomInput) (click : Point) (mid : Nat)
    (h : AmmoOk s) :
    AmmoOk initGame ∧ AmmoOk (update s rnd) ∧ AmmoOk (fireInterceptor s click mid) ∧
      AmmoOk (nextRound s) ∧ AmmoOk (spawnRocket s rnd) :=
  ⟨by intro t ht; revert t ht; decide, update_ammo s rnd h, fireInterceptor_ammo s click mid h,
    nextRound_ammo s h, spawnRocket_ammo s rnd h⟩

theorem c10_ammo_invariant_witness :
    AmmoOk initGame ∧ AmmoOk (update initGame rnd0) ∧
      AmmoOk (fireInterceptor initGame clickPt 7) ∧ AmmoOk (nextRound initGame) ∧
      AmmoOk (spawnRocket initGame rnd0) :=
  c10_ammo_invariant initGame rnd0 clickPt 7 (by intro t ht; revert t ht; decide)

theorem c7_projectile_invariants_witness :
    PosOkAll (update initGame rnd0) ∧ PosOkAll (fireInterceptor initGame clickPt 7) ∧
      PosOkAll (spawnRocket initGame rnd0) ∧
      (∀ r ∈ (update initGame rnd0).rockets,
        (∃ r0 ∈ initGame.rockets, r0.id = r.id ∧ r0.progress ≤ r.progress) ∨ r.progress = 0) ∧
      (∀ m ∈ (update initGame rnd0).missiles,
        ∃ m0 ∈ initGame.missiles, m0.id = m.id ∧ m0.progress ≤ m.progress) :=
  c7_projectile_invariants initGame rnd0 clickPt 7
    (by constructor <;> simp [initGame]) (by constructor <;> simp [initGame])

theorem c5_fire_nearest_witness :
    ∃ i t, initGame.turrets.get? i = some t ∧ t.destroyed = false ∧ 0 < t.ammo ∧
      (∀ j tj, initGame.turrets.get? j = some tj → tj.destroyed = false → 0 < tj.ammo →
        |t.pos.x - clickPt.x| ≤ |tj.pos.x - clickPt.x| ∧
          (|tj.pos.x - clickPt.x| = |t.pos.x - clickPt.x| → i ≤ j)) ∧
      fireInterceptor initGame clickPt 7 =
        { initGame with
          turrets := initGame.turrets.set i { t with ammo := t.ammo - 1 }
          missiles := initGame.missiles ++
            [ { id := 7, pos := t.pos, start := t.pos, target := clickPt,
                progress := 0, speed := MISSILE_SPEED, sourceTurretIndex := i } ] } :=
  c5_fire_nearest initGame clickPt 7 rfl (by decide)

end Game
